import Mathlib

/-!
Verification development for the delay-analytics module
(`src/tracker/views_delay_analytics.py`).

The Django view functions are shallowly embedded as pure Lean functions over
an explicit list of `Order` records (the order table).  Machine conventions:

* timestamps are integers (seconds); `timedelta(days = n)` is `n * 86400`;
  `TruncDate` is floor division by 86400;
* Django querysets over `Order` become `List.filter` / `List.countP` with the
  same predicate chain; on such single-table querysets `.distinct()` is the
  identity, so counts become list lengths;
* `Decimal` / float arithmetic is modelled exactly over `ℚ`; Python
  `round(x, n)` is modelled by `pyRound` (ties rounded half-up, which agrees
  with the source everywhere a claim depends on it);
* request parameters: an absent `category` / `order_type` is the empty
  string (Python truthiness), the `user` parameter is modelled after type
  coercion as `Option Nat`;
* `user_branch` is `Option Nat`: `if user_branch:` is a `match`, while a
  direct Django `branch=user_branch` filter compares the option itself
  (`branch=None` means `branch IS NULL`);
* Python `list.sort` / `order_by` is the stable `List.insertionSort`;
  where the database iteration order of a grouping is unspecified, first
  traversal order of the list stands for it;
* numeric rendering inside human-readable description strings uses
  `toString` of the rounded rational (the claims never inspect those
  strings);
* the `top_reasons` list of the summary endpoint and the `reason_impact`
  list of the impact endpoint are not needed by any claim and are omitted from the
  embedded responses.
-/

namespace DelayAnalytics

/-- A `DelayReason` row: id, free text, and the (optional) category code of
its `DelayReasonCategory`. -/
structure DelayReason where
  id : Nat
  reason_text : String
  category : Option String
deriving DecidableEq, Repr

/-- An `Order` row, with the fields the analytics module reads. -/
structure Order where
  id : Nat
  branch : Option Nat
  type : String
  status : String
  customer : Nat
  started_at : Option Int
  completed_at : Option Int
  created_at : Int
  exceeded_9_hours : Bool
  delay_reason : Option DelayReason
  delay_reason_reported_by : Option Nat
  delay_reason_reported_at : Option Int
  invoices : List (Option ℚ)
deriving DecidableEq, Repr

/-- The five request parameters shared by the endpoints (scope/branch is
passed separately, as it is derived from the caller). -/
structure RequestParams where
  period : String
  category : String
  user : Option Nat
  order_type : String
deriving DecidableEq, Repr

/-- The table `DelayReasonCategory.CATEGORY_CHOICES` lives in `tracker/models.py`,
which is not part of the sources; the choices table is threaded through as a
parameter. Modelled from the spec: a fixed code → label table. -/
abbrev CategoryChoices := List (String × String)

/-- Embeds `_get_category_display`: code → label through the choices table, the code
itself on a missing key. -/
def get_category_display (choices : CategoryChoices) (code : String) : String :=
  match choices.lookup code with
  | some label => label
  | none => code

/-- Display of an optional category code; Python renders `None` into an
f-string as the text `"None"`. -/
def displayOptCategory (choices : CategoryChoices) : Option String → String
  | some code => get_category_display choices code
  | none => "None"

/-- Display of an optional string (f-string rendering of a possibly-`None`
value). -/
def optText : Option String → String
  | some s => s
  | none => "None"

/-- Embeds `_get_start_date_from_period`: the `period_map` lookup with the
`30days` default. -/
def get_start_date_from_period (now : Int) (period : String) : Option Int :=
  if period = "7days" then some (now - 7 * 86400)
  else if period = "30days" then some (now - 30 * 86400)
  else if period = "90days" then some (now - 90 * 86400)
  else if period = "6months" then some (now - 180 * 86400)
  else if period = "1year" then some (now - 365 * 86400)
  else if period = "all" then none
  else some (now - 30 * 86400)

/-- Python `round(q, n)` over exact rationals (ties half-up). -/
def pyRound (n : Nat) (q : ℚ) : ℚ :=
  ((round (q * (10 : ℚ) ^ n) : ℤ) : ℚ) / (10 : ℚ) ^ n

/-- The category code reachable from an order through its delay reason
(`delay_reason__category__category`). -/
def reasonCategory (o : Order) : Option String :=
  o.delay_reason.bind (fun r => r.category)

/-- Embeds `if user_branch: qs.filter(branch=user_branch)` — the truthiness-guarded
branch filter. -/
def branchOk (branch : Option Nat) (o : Order) : Bool :=
  match branch with
  | some b => o.branch == some b
  | none => true

/-- Embeds `delay_reason_reported_at__gte=start_date`, applied only when a start
date is set. -/
def reportedSince (startDate : Option Int) (o : Order) : Bool :=
  match startDate with
  | none => true
  | some d =>
    match o.delay_reason_reported_at with
    | some t => d ≤ t
    | none => false

/-- Embeds `created_at__gte=start_date`, applied only when a start date is set. -/
def createdSince (startDate : Option Int) (o : Order) : Bool :=
  match startDate with
  | none => true
  | some d => d ≤ o.created_at

/-- Embeds `if selected_category: qs.filter(delay_reason__category__category=...)`. -/
def categoryOk (cat : String) (o : Order) : Bool :=
  if cat = "" then true else reasonCategory o == some cat

/-- Embeds `if selected_user: qs.filter(delay_reason_reported_by__id=...)`. -/
def userOk (u : Option Nat) (o : Order) : Bool :=
  match u with
  | some uid => o.delay_reason_reported_by == some uid
  | none => true

/-- Embeds `if selected_order_type: qs.filter(type=...)`. -/
def typeOk (t : String) (o : Order) : Bool :=
  if t = "" then true else o.type == t

/-- The shared filtered delayed-orders predicate: non-null reason, non-null
report timestamp, then branch / start-date / category / user / type
narrowing. -/
def delayedFilter (branch : Option Nat) (startDate : Option Int)
    (cat : String) (u : Option Nat) (t : String) (o : Order) : Bool :=
  o.delay_reason.isSome && o.delay_reason_reported_at.isSome &&
    branchOk branch o && reportedSince startDate o &&
    categoryOk cat o && userOk u o && typeOk t o

/-- The queryset `orders_with_delays` of the summary endpoint (and the common shape of the
per-endpoint delayed-orders querysets). -/
def orders_with_delays (db : List Order) (branch : Option Nat)
    (startDate : Option Int) (cat : String) (u : Option Nat) (t : String) :
    List Order :=
  db.filter (delayedFilter branch startDate cat u t)

/-- The count `total_all_orders` of the summary endpoint: every order in scope
(all branches for an unscoped caller), restricted by `created_at` only. -/
def total_all_count (db : List Order) (branch : Option Nat)
    (startDate : Option Int) : Nat :=
  db.countP (fun o => branchOk branch o && createdSince startDate o)

/-- Hours between `started_at` and `completed_at`
(`total_seconds() / 3600`); 0 when either is missing. -/
def durationHours (o : Order) : ℚ :=
  match o.started_at, o.completed_at with
  | some s, some c => ((c - s : Int) : ℚ) / 3600
  | _, _ => 0

/-- The `summary` payload of `api_delay_analytics_summary`. -/
structure SummaryStats where
  total_delayed_orders : Nat
  total_all_orders : Nat
  delay_percentage : ℚ
  exceeded_2_hours : Nat
  average_hours : ℚ
deriving DecidableEq, Repr

structure SummaryResponse where
  success : Bool
  summary : SummaryStats
deriving DecidableEq, Repr

/-- Embeds `api_delay_analytics_summary` (the `top_reasons` list is omitted: no
claim concerns it). -/
def api_delay_analytics_summary (db : List Order) (branch : Option Nat)
    (params : RequestParams) (now : Int) : SummaryResponse :=
  let startDate := get_start_date_from_period now params.period
  let delayed := orders_with_delays db branch startDate
    params.category params.user params.order_type
  let total_delayed := delayed.length
  let total_all := total_all_count db branch startDate
  let delay_percentage : ℚ :=
    if 0 < total_all then (total_delayed : ℚ) / (total_all : ℚ) * 100 else 0
  let withTimes :=
    (delayed.filter (fun o => o.started_at.isSome && o.completed_at.isSome)).take 1000
  let total_duration : ℚ := (withTimes.map durationHours).sum
  let avg : ℚ :=
    if 0 < withTimes.length then total_duration / (withTimes.length : ℚ) else 0
  { success := true
    summary :=
      { total_delayed_orders := total_delayed
        total_all_orders := total_all
        delay_percentage := pyRound 2 delay_percentage
        exceeded_2_hours := (delayed.filter (fun o => o.exceeded_9_hours)).length
        average_hours := pyRound 1 avg } }

/-- Monotonicity of `round` over `ℚ`. -/
theorem round_mono_q {a b : ℚ} (h : a ≤ b) : round a ≤ round b := by
  rw [round_eq, round_eq]
  exact Int.floor_mono (by linarith)

theorem pyRound_zero (n : Nat) : pyRound n 0 = 0 := by
  simp [pyRound, round_zero]

theorem pyRound_nonneg (n : Nat) {q : ℚ} (h : 0 ≤ q) : 0 ≤ pyRound n q := by
  unfold pyRound
  apply div_nonneg _ (by positivity)
  have h0 : round (0 : ℚ) ≤ round (q * (10 : ℚ) ^ n) :=
    round_mono_q (by positivity)
  rw [round_zero] at h0
  exact_mod_cast h0

/-- Integers are fixed points of `pyRound`. -/
theorem pyRound_int (n : Nat) (m : ℤ) : pyRound n ((m : ℚ)) = (m : ℚ) := by
  unfold pyRound
  rw [show (m : ℚ) * (10 : ℚ) ^ n = ((m * 10 ^ n : ℤ) : ℚ) by push_cast; ring,
    round_intCast]
  push_cast
  field_simp

theorem pyRound_le_int (n : Nat) {q : ℚ} {m : ℤ} (h : q ≤ (m : ℚ)) :
    pyRound n q ≤ (m : ℚ) := by
  unfold pyRound
  rw [div_le_iff₀ (by positivity)]
  have h1 : q * (10 : ℚ) ^ n ≤ (m : ℚ) * (10 : ℚ) ^ n :=
    mul_le_mul_of_nonneg_right h (by positivity)
  have h2 : round (q * (10 : ℚ) ^ n) ≤ round ((m : ℚ) * (10 : ℚ) ^ n) :=
    round_mono_q h1
  have h3 : (m : ℚ) * (10 : ℚ) ^ n = ((m * 10 ^ n : ℤ) : ℚ) := by
    push_cast
    ring
  rw [h3, round_intCast] at h2
  calc ((round (q * (10 : ℚ) ^ n) : ℤ) : ℚ) ≤ ((m * 10 ^ n : ℤ) : ℚ) := by
        exact_mod_cast h2
    _ = (m : ℚ) * (10 : ℚ) ^ n := by
        push_cast
        ring

/-- The baseline denominator the table of the spec assigns to the Summary
computer, read off the spec words: completed orders carrying a delay-report
timestamp, in the same period and scope.  This is the comparison definition
for the refinement claim C1; the denominator of the code itself is
`total_all_count`. -/
def spec_summary_baseline (db : List Order) (branch : Option Nat)
    (startDate : Option Int) : Nat :=
  db.countP (fun o => o.status == "completed" &&
    o.delay_reason_reported_at.isSome && branchOk branch o &&
    reportedSince startDate o)

/-- The delay percentage claim C1 asserts for the Summary computer:
`total_delayed` over `spec_summary_baseline`, times 100. -/
def spec_summary_delay_percentage (db : List Order) (branch : Option Nat)
    (params : RequestParams) (now : Int) : ℚ :=
  let startDate := get_start_date_from_period now params.period
  let d := (orders_with_delays db branch startDate
    params.category params.user params.order_type).length
  let b := spec_summary_baseline db branch startDate
  if 0 < b then (d : ℚ) / (b : ℚ) * 100 else 0

/-- A default order record; concrete databases below override fields. -/
def baseOrder : Order :=
  { id := 0
    branch := none
    type := "service"
    status := "created"
    customer := 0
    started_at := none
    completed_at := none
    created_at := 0
    exceeded_9_hours := false
    delay_reason := none
    delay_reason_reported_by := none
    delay_reason_reported_at := none
    invoices := [] }

def rsnLogistics : DelayReason :=
  { id := 1, reason_text := "parts shipment late", category := some "logistics" }

/-- A completed, delayed order (delay reason and report timestamp set). -/
def oCompletedDelayed : Order :=
  { baseOrder with
    id := 1
    status := "completed"
    delay_reason := some rsnLogistics
    delay_reason_reported_at := some 10 }

/-- An order with no delay reason and no report timestamp. -/
def oPlain : Order :=
  { baseOrder with id := 2 }

/-- Counterexample to C1: on a two-order database with one completed delayed
order and one plain order (period `all`, unscoped caller), the code divides
the delayed count 1 by the count of ALL orders (2), yielding 50, while the
baseline of the claim (completed orders with a delay-report timestamp) has count
1 and yields 100. -/
theorem summary_baseline_counterexample :
    (api_delay_analytics_summary [oCompletedDelayed, oPlain] none
        ⟨"all", "", none, ""⟩ 0).summary.delay_percentage = 50 ∧
    spec_summary_delay_percentage [oCompletedDelayed, oPlain] none
        ⟨"all", "", none, ""⟩ 0 = 100 ∧
    (api_delay_analytics_summary [oCompletedDelayed, oPlain] none
        ⟨"all", "", none, ""⟩ 0).summary.delay_percentage ≠
      spec_summary_delay_percentage [oCompletedDelayed, oPlain] none
        ⟨"all", "", none, ""⟩ 0 := by
  have hs : get_start_date_from_period 0 "all" = none := rfl
  have hd : (orders_with_delays [oCompletedDelayed, oPlain] none none
      "" none "").length = 1 := by decide
  have ha : total_all_count [oCompletedDelayed, oPlain] none none = 2 := by
    decide
  have hb : spec_summary_baseline [oCompletedDelayed, oPlain] none none = 1 := by
    decide
  have hA : (api_delay_analytics_summary [oCompletedDelayed, oPlain] none
      ⟨"all", "", none, ""⟩ 0).summary.delay_percentage = 50 := by
    simp only [api_delay_analytics_summary, hs, hd, ha]
    rw [if_pos (by norm_num)]
    rw [show ((1 : ℕ) : ℚ) / ((2 : ℕ) : ℚ) * 100 = ((50 : ℤ) : ℚ) by norm_num,
      pyRound_int]
    norm_num
  have hB : spec_summary_delay_percentage [oCompletedDelayed, oPlain] none
      ⟨"all", "", none, ""⟩ 0 = 100 := by
    simp only [spec_summary_delay_percentage, hs, hd, hb]
    rw [if_pos (by norm_num)]
    norm_num
  refine ⟨hA, hB, ?_⟩
  rw [hA, hB]
  norm_num

/-- C1 amended: the `delay_percentage` of the Summary computer equals
`total_delayed` divided by the count of ALL orders in scope whose
`created_at` falls in the period (any status, delay-reported or not), times
100, rounded to 2 decimals — not the completed-with-delay-report baseline
the claim names. -/
theorem summary_delay_percentage_all_orders_baseline
    (db : List Order) (branch : Option Nat) (params : RequestParams)
    (now : Int)
    (h : 0 < total_all_count db branch
      (get_start_date_from_period now params.period)) :
    (api_delay_analytics_summary db branch params now).summary.delay_percentage =
      pyRound 2
        (((orders_with_delays db branch
              (get_start_date_from_period now params.period)
              params.category params.user params.order_type).length : ℚ) /
          (total_all_count db branch
              (get_start_date_from_period now params.period) : ℚ) * 100) := by
  simp only [api_delay_analytics_summary, if_pos h]

/-- Witness for the amended C1 at a concrete database. -/
theorem summary_delay_percentage_all_orders_baseline_witness :
    0 < total_all_count [oCompletedDelayed, oPlain] none
      (get_start_date_from_period 0 "all") ∧
    (api_delay_analytics_summary [oCompletedDelayed, oPlain] none
        ⟨"all", "", none, ""⟩ 0).summary.delay_percentage =
      pyRound 2
        (((orders_with_delays [oCompletedDelayed, oPlain] none
              (get_start_date_from_period 0 "all") "" none "").length : ℚ) /
          (total_all_count [oCompletedDelayed, oPlain] none
              (get_start_date_from_period 0 "all") : ℚ) * 100) :=
  ⟨by decide,
    summary_delay_percentage_all_orders_baseline [oCompletedDelayed, oPlain]
      none ⟨"all", "", none, ""⟩ 0 (by decide)⟩

/-- A delayed order reported in-window but created before the window. -/
def oOldCreated : Order :=
  { baseOrder with
    id := 3
    created_at := 864000
    delay_reason := some rsnLogistics
    delay_reason_reported_at := some 6912000 }

/-- A delayed order created and reported inside the window. -/
def oNewCreated : Order :=
  { baseOrder with
    id := 4
    created_at := 6912000
    delay_reason := some rsnLogistics
    delay_reason_reported_at := some 6912000 }

/-- Counterexample to C2: with a 30-day window, a delayed order reported
in-window but created before the window inflates the numerator past the
`created_at`-scoped denominator: 2 delayed orders over 1 baseline order
gives a delay percentage of 200. -/
theorem summary_delay_percentage_exceeds_100 :
    100 < (api_delay_analytics_summary [oOldCreated, oNewCreated] none
      ⟨"30days", "", none, ""⟩ 8640000).summary.delay_percentage := by
  have hs : get_start_date_from_period 8640000 "30days" = some 6048000 := rfl
  have hd : (orders_with_delays [oOldCreated, oNewCreated] none
      (some 6048000) "" none "").length = 2 := by decide
  have ha : total_all_count [oOldCreated, oNewCreated] none
      (some 6048000) = 1 := by decide
  simp only [api_delay_analytics_summary, hs, hd, ha]
  rw [if_pos (by norm_num)]
  rw [show ((2 : ℕ) : ℚ) / ((1 : ℕ) : ℚ) * 100 = ((200 : ℤ) : ℚ) by norm_num,
    pyRound_int]
  norm_num

/-- C2 amended: `delay_percentage` is nonnegative and equals 0 on a zero
denominator (never an error or NaN), and it is at most 100 whenever the
period is `all`; with a start-date cutoff it can exceed 100, because the
numerator is filtered on the delay-report timestamp while the denominator is
filtered on `created_at`. -/
theorem summary_delay_percentage_bounds
    (db : List Order) (branch : Option Nat) (params : RequestParams)
    (now : Int) :
    0 ≤ (api_delay_analytics_summary db branch params now).summary.delay_percentage ∧
    (total_all_count db branch (get_start_date_from_period now params.period) = 0 →
      (api_delay_analytics_summary db branch params now).summary.delay_percentage = 0) ∧
    (params.period = "all" →
      (api_delay_analytics_summary db branch params now).summary.delay_percentage ≤ 100) := by
  refine ⟨?_, fun h0 => ?_, fun hall => ?_⟩
  · apply pyRound_nonneg
    split
    · positivity
    · exact le_refl 0
  · simp only [api_delay_analytics_summary]
    rw [if_neg (by omega)]
    exact pyRound_zero 2
  · have hstart : get_start_date_from_period now params.period = none := by
      simp [get_start_date_from_period, hall]
    simp only [api_delay_analytics_summary, hstart]
    have hle : (orders_with_delays db branch none
        params.category params.user params.order_type).length ≤
        total_all_count db branch none := by
      rw [orders_with_delays, ← List.countP_eq_length_filter]
      simp only [total_all_count]
      apply List.countP_mono_left
      intro o _ hp
      simp only [delayedFilter, Bool.and_eq_true] at hp
      simp [createdSince, hp.1.1.1.1.2]
    split
    · rename_i hpos
      have h100 : ((orders_with_delays db branch none
          params.category params.user params.order_type).length : ℚ) /
          (total_all_count db branch none : ℚ) * 100 ≤ ((100 : ℤ) : ℚ) := by
        push_cast
        rw [div_mul_eq_mul_div, div_le_iff₀ (by exact_mod_cast hpos)]
        have hc := (Nat.cast_le (α := ℚ)).2 hle
        nlinarith [hc]
      have hfin := pyRound_le_int 2 h100
      simpa using hfin
    · rw [pyRound_zero]
      norm_num

/-- Witness for the amended C2 at a concrete database (empty database:
zero denominator; period `all`). -/
theorem summary_delay_percentage_bounds_witness :
    0 ≤ (api_delay_analytics_summary [] none ⟨"all", "", none, ""⟩ 0).summary.delay_percentage ∧
    (api_delay_analytics_summary [] none ⟨"all", "", none, ""⟩ 0).summary.delay_percentage = 0 ∧
    (api_delay_analytics_summary [] none ⟨"all", "", none, ""⟩ 0).summary.delay_percentage ≤ 100 := by
  obtain ⟨h1, h2, h3⟩ :=
    summary_delay_percentage_bounds [] none ⟨"all", "", none, ""⟩ 0
  exact ⟨h1, h2 (by decide), h3 rfl⟩

/-- C3: `get_start_date_from_period` maps the five known periods to
`now` minus 7/30/90/180/365 days, maps `all` to `none`, and maps any other
string to the `30days` value. -/
theorem get_start_date_from_period_spec (now : Int) (p : String) :
    get_start_date_from_period now "7days" = some (now - 7 * 86400) ∧
    get_start_date_from_period now "30days" = some (now - 30 * 86400) ∧
    get_start_date_from_period now "90days" = some (now - 90 * 86400) ∧
    get_start_date_from_period now "6months" = some (now - 180 * 86400) ∧
    get_start_date_from_period now "1year" = some (now - 365 * 86400) ∧
    get_start_date_from_period now "all" = none ∧
    (p ∉ ["7days", "30days", "90days", "6months", "1year", "all"] →
      get_start_date_from_period now p = get_start_date_from_period now "30days") := by
  refine ⟨rfl, rfl, rfl, rfl, rfl, rfl, fun h => ?_⟩
  simp only [List.mem_cons, List.not_mem_nil, or_false, not_or] at h
  obtain ⟨h1, h2, h3, h4, h5, h6⟩ := h
  simp [get_start_date_from_period, h1, h2, h3, h4, h5, h6]

/-- Witness for C3: the unknown period `foo` behaves as `30days`. -/
theorem get_start_date_from_period_spec_witness :
    get_start_date_from_period 0 "foo" = get_start_date_from_period 0 "30days" :=
  (get_start_date_from_period_spec 0 "foo").2.2.2.2.2.2 (by decide)

/-- The delayed-orders queryset of `api_delay_impact_analysis` (branch and
start-date filters only; this endpoint reads no category/user/type
parameters). -/
def impact_orders_qs (db : List Order) (branch : Option Nat)
    (startDate : Option Int) : List Order :=
  db.filter (delayedFilter branch startDate "" none "")

/-- The input of the impact loop: delayed orders with both timestamps. -/
def impact_view (db : List Order) (branch : Option Nat)
    (startDate : Option Int) : List Order :=
  (impact_orders_qs db branch startDate).filter
    (fun o => o.started_at.isSome && o.completed_at.isSome)

/-- The accumulation loop of `api_delay_impact_analysis`: add
`duration - 9` whenever the start-to-completion duration exceeds 9 hours. -/
def impact_hours_loop : List Order → ℚ → ℚ
  | [], acc => acc
  | o :: rest, acc =>
    impact_hours_loop rest
      (if 9 < durationHours o then acc + (durationHours o - 9) else acc)

/-- The quantity `total_delayed_hours` as accumulated by `api_delay_impact_analysis`. -/
def total_delayed_hours (db : List Order) (branch : Option Nat)
    (startDate : Option Int) : ℚ :=
  impact_hours_loop (impact_view db branch startDate) 0

/-- Embeds `total_revenue_at_risk`: the sum of invoice amounts over the same loop
(a missing or zero amount contributes nothing). -/
def estimated_revenue_impact (db : List Order) (branch : Option Nat)
    (startDate : Option Int) : ℚ :=
  ((impact_view db branch startDate).map
    (fun o => (o.invoices.map (fun a => a.getD 0)).sum)).sum

/-- Distinct customers with at least two delayed orders in scope. -/
def customers_with_repeat_delays (db : List Order) (branch : Option Nat)
    (startDate : Option Int) : Nat :=
  (((impact_orders_qs db branch startDate).map (fun o => o.customer)).dedup.filter
    (fun c => 2 ≤ (impact_orders_qs db branch startDate).countP
      (fun o => o.customer == c))).length

def total_unique_customers_affected (db : List Order) (branch : Option Nat)
    (startDate : Option Int) : Nat :=
  ((impact_orders_qs db branch startDate).map (fun o => o.customer)).dedup.length

/-- The `impact` payload of `api_delay_impact_analysis` (the `reason_impact`
list is omitted: no claim concerns it). -/
structure ImpactStats where
  total_delayed_hours : ℚ
  estimated_revenue_impact : ℚ
  customers_with_repeat_delays : Nat
  total_unique_customers_affected : Nat
deriving DecidableEq, Repr

def api_delay_impact_analysis (db : List Order) (branch : Option Nat)
    (params : RequestParams) (now : Int) : ImpactStats :=
  let startDate := get_start_date_from_period now params.period
  { total_delayed_hours := pyRound 1 (total_delayed_hours db branch startDate)
    estimated_revenue_impact := estimated_revenue_impact db branch startDate
    customers_with_repeat_delays := customers_with_repeat_delays db branch startDate
    total_unique_customers_affected := total_unique_customers_affected db branch startDate }

/-- The loop accumulates exactly the sum of `max 0 (duration - 9)`. -/
theorem impact_hours_loop_eq (l : List Order) (acc : ℚ) :
    impact_hours_loop l acc =
      acc + ((l.map (fun o => max 0 (durationHours o - 9))).sum) := by
  induction l generalizing acc with
  | nil => simp [impact_hours_loop]
  | cons o rest ih =>
    simp only [impact_hours_loop, List.map_cons, List.sum_cons]
    rw [ih]
    have hmax : max 0 (durationHours o - 9) =
        if 9 < durationHours o then durationHours o - 9 else 0 := by
      rcases le_or_lt (durationHours o) 9 with h | h
      · rw [if_neg (not_lt.2 h), max_eq_left (by linarith)]
      · rw [if_pos h, max_eq_right (by linarith)]
    rw [hmax]
    split <;> ring

/-- A delayed order whose timestamps are 11 hours apart. -/
def oEleven : Order :=
  { baseOrder with
    id := 5
    delay_reason := some rsnLogistics
    delay_reason_reported_at := some 1
    started_at := some 0
    completed_at := some 39600 }

/-- A delayed order whose timestamps are 5 hours apart. -/
def oFive : Order :=
  { baseOrder with
    id := 6
    delay_reason := some rsnLogistics
    delay_reason_reported_at := some 1
    started_at := some 0
    completed_at := some 18000 }

/-- C4: the `total_delayed_hours` of impact analysis is the sum, over delayed
orders in scope/period having both `started_at` and `completed_at`, of
`max 0 (hours between start and completion - 9)`; an order 11 hours apart
contributes exactly 2 and one 5 hours apart contributes 0. -/
theorem total_delayed_hours_spec (db : List Order) (branch : Option Nat)
    (startDate : Option Int) :
    total_delayed_hours db branch startDate =
      ((impact_view db branch startDate).map
        (fun o => max 0 (durationHours o - 9))).sum ∧
    total_delayed_hours [oEleven] none none = 2 ∧
    total_delayed_hours [oFive] none none = 0 := by
  have hgen : ∀ (db2 : List Order) (b2 : Option Nat) (s2 : Option Int),
      total_delayed_hours db2 b2 s2 =
        ((impact_view db2 b2 s2).map
          (fun o => max 0 (durationHours o - 9))).sum := by
    intro db2 b2 s2
    rw [total_delayed_hours, impact_hours_loop_eq, zero_add]
  have hv11 : impact_view [oEleven] none none = [oEleven] := by decide
  have hv5 : impact_view [oFive] none none = [oFive] := by decide
  have hd11 : durationHours oEleven = 11 := by
    simp [durationHours, oEleven, baseOrder]
    norm_num
  have hd5 : durationHours oFive = 5 := by
    simp [durationHours, oFive, baseOrder]
    norm_num
  refine ⟨hgen db branch startDate, ?_, ?_⟩
  · rw [hgen, hv11]
    simp only [List.map_cons, List.map_nil, List.sum_cons, List.sum_nil, hd11]
    rw [show (11 : ℚ) - 9 = 2 by norm_num,
      max_eq_right (by norm_num : (0 : ℚ) ≤ 2)]
    norm_num
  · rw [hgen, hv5]
    simp only [List.map_cons, List.map_nil, List.sum_cons, List.sum_nil, hd5]
    rw [show (5 : ℚ) - 9 = -4 by norm_num,
      max_eq_left (by norm_num : (-4 : ℚ) ≤ 0)]
    norm_num

/-- Stable descending-by-count order: the key used by the Python call
`data.sort(key=count, reverse=True)` and by `order_by(-count)`. -/
def cntGE {α : Type} (x y : α × Nat) : Prop := y.2 ≤ x.2

instance {α : Type} : DecidableRel (@cntGE α) :=
  fun x y => inferInstanceAs (Decidable (y.2 ≤ x.2))

instance {α : Type} : IsTotal (α × Nat) cntGE :=
  ⟨fun x y => Nat.le_total y.2 x.2⟩

instance {α : Type} : IsTrans (α × Nat) cntGE :=
  ⟨fun _ _ _ h1 h2 => Nat.le_trans h2 h1⟩

/-- Orders counted for one category by `api_delay_reasons_breakdown`
(matching reason category and non-null report timestamp, then
branch/date/user/type narrowing; the category parameter of the caller is applied
when selecting which categories appear, not in the per-category count). -/
def breakdown_count_pred (branch : Option Nat) (startDate : Option Int)
    (u : Option Nat) (t : String) (c : String) (o : Order) : Bool :=
  reasonCategory o == some c && o.delay_reason_reported_at.isSome &&
    branchOk branch o && reportedSince startDate o && userOk u o && typeOk t o

/-- The filtered delayed-orders view the breakdown is measured against. -/
def breakdown_view (db : List Order) (branch : Option Nat)
    (startDate : Option Int) (cat : String) (u : Option Nat) (t : String) :
    List Order :=
  db.filter (delayedFilter branch startDate cat u t)

/-- The distinct categories that survive `categories_qs` together with the
`count > 0` check: exactly the categories appearing in the filtered delayed
view (the list order stands for the unspecified database iteration order). -/
def breakdown_categories (db : List Order) (branch : Option Nat)
    (startDate : Option Int) (cat : String) (u : Option Nat) (t : String) :
    List String :=
  ((breakdown_view db branch startDate cat u t).filterMap reasonCategory).dedup

/-- Per-category rows (category code, distinct-order count) before
sorting. -/
def breakdown_raw (db : List Order) (branch : Option Nat)
    (startDate : Option Int) (cat : String) (u : Option Nat) (t : String) :
    List (String × Nat) :=
  (breakdown_categories db branch startDate cat u t).map
    (fun c => (c, db.countP (breakdown_count_pred branch startDate u t c)))

structure BreakdownEntry where
  category : String
  category_name : String
  count : Nat
  percentage : ℚ
deriving DecidableEq, Repr

structure BreakdownResponse where
  success : Bool
  data : List BreakdownEntry
  total : Nat
deriving DecidableEq, Repr

/-- The per-category rows after the stable `reverse=True` count sort. -/
def breakdown_sorted (db : List Order) (branch : Option Nat)
    (startDate : Option Int) (cat : String) (u : Option Nat) (t : String) :
    List (String × Nat) :=
  List.insertionSort cntGE (breakdown_raw db branch startDate cat u t)

/-- Embeds `total = sum(item.count for item in data)`. -/
def breakdown_total (db : List Order) (branch : Option Nat)
    (startDate : Option Int) (cat : String) (u : Option Nat) (t : String) :
    Nat :=
  ((breakdown_sorted db branch startDate cat u t).map (fun x => x.2)).sum

/-- Embeds `api_delay_reasons_breakdown`: per-category rows, stable-sorted by count
descending; `total` is their sum; percentages are `count / total * 100`
rounded to 1 decimal (0 on a zero total). -/
def api_delay_reasons_breakdown (db : List Order) (branch : Option Nat)
    (params : RequestParams) (now : Int) (choices : CategoryChoices) :
    BreakdownResponse :=
  let startDate := get_start_date_from_period now params.period
  let total := breakdown_total db branch startDate params.category
    params.user params.order_type
  { success := true
    data := (breakdown_sorted db branch startDate params.category params.user
        params.order_type).map (fun x =>
      { category := x.1
        category_name := get_category_display choices x.1
        count := x.2
        percentage :=
          if 0 < total then pyRound 1 ((x.2 : ℚ) / (total : ℚ) * 100)
          else 0 })
    total := total }

theorem sum_map_indicator_zero (cs : List String) (c0 : String)
    (hm : c0 ∉ cs) :
    (cs.map (fun c => if c0 = c then 1 else 0)).sum = 0 := by
  apply List.sum_eq_zero
  intro x hx
  rcases List.mem_map.1 hx with ⟨c1, hc1, rfl⟩
  have hne : c0 ≠ c1 := fun h => hm (h ▸ hc1)
  rw [if_neg hne]

theorem sum_map_indicator_one (cs : List String) (c0 : String)
    (hnd : cs.Nodup) (hm : c0 ∈ cs) :
    (cs.map (fun c => if c0 = c then 1 else 0)).sum = 1 := by
  induction cs with
  | nil => cases hm
  | cons c cs ih =>
    rcases List.mem_cons.1 hm with rfl | hmem
    · have hnot : c0 ∉ cs := (List.nodup_cons.1 hnd).1
      simp only [List.map_cons, List.sum_cons, if_pos rfl]
      rw [sum_map_indicator_zero cs c0 hnot]
      simp
    · have hne : c0 ≠ c := by
        rintro rfl
        exact (List.nodup_cons.1 hnd).1 hmem
      simp only [List.map_cons, List.sum_cons, if_neg hne, Nat.zero_add]
      exact ih (List.nodup_cons.1 hnd).2 hmem

theorem sum_map_add_nat {β : Type} (cs : List β) (f g : β → Nat) :
    (cs.map (fun c => f c + g c)).sum = (cs.map f).sum + (cs.map g).sum := by
  induction cs with
  | nil => rfl
  | cons c cs ih =>
    simp only [List.map_cons, List.sum_cons, ih]
    omega

/-- Orders partition across the distinct categories that cover them: summing
the per-category counts over a duplicate-free covering list of categories
counts exactly the categorized orders. -/
theorem sum_countP_categories (cs : List String) (hnd : cs.Nodup) :
    ∀ (l : List Order),
      (∀ o ∈ l, ∀ c, reasonCategory o = some c → c ∈ cs) →
      (cs.map (fun c => l.countP (fun o => reasonCategory o == some c))).sum =
        l.countP (fun o => (reasonCategory o).isSome)
  | [], _ => by simp
  | o :: l, hcov => by
    have ih := sum_countP_categories cs hnd l
      (fun o2 h2 => hcov o2 (List.mem_cons_of_mem _ h2))
    simp only [List.countP_cons]
    rw [sum_map_add_nat, ih]
    congr 1
    cases hx : reasonCategory o with
    | none =>
      simp only [Option.isSome_none, Bool.false_eq_true, if_false]
      apply List.sum_eq_zero
      intro x hxm
      rcases List.mem_map.1 hxm with ⟨c1, _, rfl⟩
      simp [hx]
    | some c0 =>
      have hm : c0 ∈ cs := hcov o (List.mem_cons_self o l) c0 hx
      simp only [hx, Option.isSome_some, if_true]
      rw [show (cs.map (fun c => if (some c0 == some c) = true
            then 1 else 0)) = cs.map (fun c => if c0 = c then 1 else 0) by
          apply List.map_congr_left
          intro c _
          simp]
      exact sum_map_indicator_one cs c0 hnd hm

/-- The per-category counting predicate agrees with membership in the
filtered view with that category, provided the category is compatible with
the category filter of the caller. -/
theorem breakdown_count_pred_eq_view (branch : Option Nat)
    (startDate : Option Int) (cat : String) (u : Option Nat) (t : String)
    (c : String) (hc : cat = "" ∨ c = cat) (o : Order) :
    breakdown_count_pred branch startDate u t c o =
      (delayedFilter branch startDate cat u t o &&
        (reasonCategory o == some c)) := by
  have h1 : reasonCategory o = some c → o.delay_reason.isSome = true := by
    intro h
    unfold reasonCategory at h
    cases hr : o.delay_reason with
    | none => rw [hr] at h; cases h
    | some r => simp [hr]
  have h2 : reasonCategory o = some c → categoryOk cat o = true := by
    intro h
    rcases hc with rfl | rfl
    · simp [categoryOk]
    · simp [categoryOk, h]
  rw [Bool.eq_iff_iff]
  simp only [breakdown_count_pred, delayedFilter, Bool.and_eq_true,
    beq_iff_eq]
  tauto

/-- Each category in the breakdown is compatible with the category
filter and is witnessed by an order of the filtered view. -/
theorem breakdown_categories_coherent (db : List Order) (branch : Option Nat)
    (startDate : Option Int) (cat : String) (u : Option Nat) (t : String) :
    ∀ c ∈ breakdown_categories db branch startDate cat u t,
      (cat = "" ∨ c = cat) ∧
      ∃ o ∈ breakdown_view db branch startDate cat u t,
        reasonCategory o = some c := by
  intro c hc
  rw [breakdown_categories, List.mem_dedup] at hc
  rcases List.mem_filterMap.1 hc with ⟨o, ho, hco⟩
  refine ⟨?_, o, ho, hco⟩
  rw [breakdown_view, List.mem_filter] at ho
  have hdf := ho.2
  simp only [delayedFilter, Bool.and_eq_true] at hdf
  have hcatOk := hdf.1.1.2
  by_cases hce : cat = ""
  · exact Or.inl hce
  · right
    unfold categoryOk at hcatOk
    rw [if_neg hce, beq_iff_eq, hco] at hcatOk
    exact Option.some_inj.1 hcatOk

/-- Every count in the raw breakdown rows is positive. -/
theorem breakdown_raw_pos (db : List Order) (branch : Option Nat)
    (startDate : Option Int) (cat : String) (u : Option Nat) (t : String) :
    ∀ x ∈ breakdown_raw db branch startDate cat u t, 0 < x.2 := by
  intro x hx
  rcases List.mem_map.1 hx with ⟨c, hc, rfl⟩
  obtain ⟨hcoh, o, ho, hco⟩ :=
    breakdown_categories_coherent db branch startDate cat u t c hc
  refine List.countP_pos_iff.2 ⟨o, ?_, ?_⟩
  · exact (List.mem_filter.1 ho).1
  · rw [breakdown_count_pred_eq_view branch startDate cat u t c hcoh]
    have hdf := (List.mem_filter.1 ho).2
    simp [hdf, hco]

/-- The raw breakdown counts sum to the number of categorized orders in the
filtered view. -/
theorem breakdown_raw_sum (db : List Order) (branch : Option Nat)
    (startDate : Option Int) (cat : String) (u : Option Nat) (t : String) :
    ((breakdown_raw db branch startDate cat u t).map (fun x => x.2)).sum =
      (breakdown_view db branch startDate cat u t).countP
        (fun o => (reasonCategory o).isSome) := by
  rw [breakdown_raw, List.map_map]
  have hstep : ((breakdown_categories db branch startDate cat u t).map
      ((fun x : String × Nat => x.2) ∘
        (fun c => (c, db.countP (breakdown_count_pred branch startDate u t c))))) =
      (breakdown_categories db branch startDate cat u t).map
        (fun c => (breakdown_view db branch startDate cat u t).countP
          (fun o => reasonCategory o == some c)) := by
    apply List.map_congr_left
    intro c hc
    obtain ⟨hcoh, _⟩ :=
      breakdown_categories_coherent db branch startDate cat u t c hc
    simp only [Function.comp]
    rw [breakdown_view, List.countP_filter]
    apply List.countP_congr
    intro o _
    rw [breakdown_count_pred_eq_view branch startDate cat u t c hcoh,
      Bool.and_comm]
  rw [hstep]
  apply sum_countP_categories
  · exact List.nodup_dedup _
  · intro o ho c hco
    rw [breakdown_categories, List.mem_dedup]
    exact List.mem_filterMap.2 ⟨o, ho, hco⟩

/-- C5: for every filter combination, the `total` of the breakdown is the
sum of the entry counts; that sum never exceeds the number of delayed orders in
the filtered view and equals it when every delayed order in the view has a
non-null category; entries are sorted by count descending; and for each
entry the percentage is its count over the sum, times 100, rounded to 1 decimal. -/
theorem delay_reasons_breakdown_spec (db : List Order) (branch : Option Nat)
    (params : RequestParams) (now : Int) (choices : CategoryChoices) :
    (api_delay_reasons_breakdown db branch params now choices).total =
      (((api_delay_reasons_breakdown db branch params now choices).data).map
        (fun e => e.count)).sum ∧
    (api_delay_reasons_breakdown db branch params now choices).total ≤
      (breakdown_view db branch (get_start_date_from_period now params.period)
        params.category params.user params.order_type).length ∧
    ((∀ o ∈ breakdown_view db branch
        (get_start_date_from_period now params.period)
        params.category params.user params.order_type,
        (reasonCategory o).isSome) →
      (api_delay_reasons_breakdown db branch params now choices).total =
        (breakdown_view db branch
          (get_start_date_from_period now params.period)
          params.category params.user params.order_type).length) ∧
    ((api_delay_reasons_breakdown db branch params now choices).data).Pairwise
      (fun a b => b.count ≤ a.count) ∧
    (∀ e ∈ (api_delay_reasons_breakdown db branch params now choices).data,
      e.percentage = pyRound 1 ((e.count : ℚ) /
        ((api_delay_reasons_breakdown db branch params now choices).total : ℚ) *
        100)) := by
  have hperm : List.Perm
      (breakdown_sorted db branch
        (get_start_date_from_period now params.period)
        params.category params.user params.order_type)
      (breakdown_raw db branch (get_start_date_from_period now params.period)
        params.category params.user params.order_type) :=
    List.perm_insertionSort cntGE _
  have hsum : breakdown_total db branch
      (get_start_date_from_period now params.period)
      params.category params.user params.order_type =
      (breakdown_view db branch (get_start_date_from_period now params.period)
        params.category params.user params.order_type).countP
        (fun o => (reasonCategory o).isSome) := by
    rw [breakdown_total, (hperm.map (fun x => x.2)).sum_eq, breakdown_raw_sum]
  refine ⟨?_, ?_, fun hall => ?_, ?_, ?_⟩
  · simp only [api_delay_reasons_breakdown, List.map_map]
    rfl
  · simp only [api_delay_reasons_breakdown]
    rw [hsum]
    exact List.countP_le_length _
  · simp only [api_delay_reasons_breakdown]
    rw [hsum]
    exact List.countP_eq_length.2 hall
  · have hs : List.Sorted cntGE (breakdown_sorted db branch
        (get_start_date_from_period now params.period)
        params.category params.user params.order_type) :=
      List.sorted_insertionSort cntGE _
    simp only [api_delay_reasons_breakdown]
    rw [List.pairwise_map]
    exact hs
  · intro e he
    simp only [api_delay_reasons_breakdown] at he ⊢
    rcases List.mem_map.1 he with ⟨x, hx, rfl⟩
    have hxraw : x ∈ breakdown_raw db branch
        (get_start_date_from_period now params.period)
        params.category params.user params.order_type := hperm.mem_iff.1 hx
    have hpos : 0 < x.2 := breakdown_raw_pos db branch
      (get_start_date_from_period now params.period)
      params.category params.user params.order_type x hxraw
    have hle2 : x.2 ≤ breakdown_total db branch
        (get_start_date_from_period now params.period)
        params.category params.user params.order_type := by
      apply List.single_le_sum (fun y _ => Nat.zero_le y)
      exact List.mem_map.2 ⟨x, hx, rfl⟩
    have hT : 0 < breakdown_total db branch
        (get_start_date_from_period now params.period)
        params.category params.user params.order_type :=
      lt_of_lt_of_le hpos hle2
    simp only [if_pos hT]

def rsnMechanical : DelayReason :=
  { id := 2, reason_text := "machine fault", category := some "mechanical" }

/-- A delayed order with the given id and reason, reported at time 1. -/
def mkDelayed (i : Nat) (r : DelayReason) : Order :=
  { baseOrder with
    id := i
    delay_reason := some r
    delay_reason_reported_at := some 1 }

/-- Scenario A data: 10 delayed orders, 7 logistics and 3 mechanical. -/
def dbScenarioA : List Order :=
  [mkDelayed 1 rsnLogistics, mkDelayed 2 rsnLogistics,
   mkDelayed 3 rsnLogistics, mkDelayed 4 rsnLogistics,
   mkDelayed 5 rsnLogistics, mkDelayed 6 rsnLogistics,
   mkDelayed 7 rsnLogistics, mkDelayed 8 rsnMechanical,
   mkDelayed 9 rsnMechanical, mkDelayed 10 rsnMechanical]

/-- Witness for C5 on the Scenario A data (30-day period, all orders
categorized): the breakdown total equals the delayed count. -/
theorem delay_reasons_breakdown_spec_witness :
    (api_delay_reasons_breakdown dbScenarioA none ⟨"30days", "", none, ""⟩
        2592000 []).total =
      (breakdown_view dbScenarioA none
        (get_start_date_from_period 2592000 "30days") "" none "").length :=
  (delay_reasons_breakdown_spec dbScenarioA none ⟨"30days", "", none, ""⟩
    2592000 []).2.2.1 (by decide)

/-- Embeds `priority_order = [high: 0, medium: 1, low: 2]` with default 3. -/
def prRank (p : String) : Nat :=
  if p = "high" then 0
  else if p = "medium" then 1
  else if p = "low" then 2
  else 3

structure Recommendation where
  priority : String
  category : String
  title : String
  description : String
  impact : String
deriving DecidableEq, Repr

/-- The stable priority order of the final `recommendations.sort`. -/
def recLE (a b : Recommendation) : Prop :=
  prRank a.priority ≤ prRank b.priority

instance : DecidableRel recLE :=
  fun a b => inferInstanceAs (Decidable (prRank a.priority ≤ prRank b.priority))

instance : IsTotal Recommendation recLE :=
  ⟨fun _ _ => Nat.le_total _ _⟩

instance : IsTrans Recommendation recLE :=
  ⟨fun _ _ _ => Nat.le_trans⟩

/-- Descending order on dates (`order_by(-date)`). -/
def intGE (a b : Int) : Prop := b ≤ a

instance : DecidableRel intGE :=
  fun a b => inferInstanceAs (Decidable (b ≤ a))

instance : IsTotal Int intGE := ⟨fun a b => Int.le_total b a⟩

instance : IsTrans Int intGE := ⟨fun _ _ _ h1 h2 => Int.le_trans h2 h1⟩

/-- Rule 1 grouping: distinct reason categories (the null category included,
as `values()` groups nulls) with distinct-order counts, ordered by count
descending. -/
def category_counts (view : List Order) : List (Option String × Nat) :=
  List.insertionSort cntGE (((view.map reasonCategory).dedup).map
    (fun k => (k, view.countP (fun o => decide (reasonCategory o = k)))))

/-- The Process Improvement record rule 1 emits for the dominant category
over a delayed population of the given size. -/
def rule1_rec (choices : CategoryChoices) (top : Option String × Nat)
    (total : Nat) : Recommendation :=
  { priority := "high"
    category := "Process Improvement"
    title := "Address " ++ displayOptCategory choices top.1 ++ " Issues"
    description := displayOptCategory choices top.1 ++ " accounts for " ++
      toString (pyRound 1 ((top.2 : ℚ) / (total : ℚ) * 100)) ++
      "% of delays. Consider process improvements or resource allocation."
    impact := "high" }

/-- Rule 1 (dominant category): emit a high-priority Process Improvement
recommendation when the top category holds more than 30 percent of the
delayed view. -/
def rule1_recs (choices : CategoryChoices) (view : List Order) :
    List Recommendation :=
  match category_counts view with
  | [] => []
  | top :: _ =>
    if (view.length : ℚ) * (3 / 10) < (top.2 : ℚ) then
      [rule1_rec choices top view.length]
    else []

/-- Rule 2 (threshold breaches): emit an Urgent recommendation when any
order carries the exceeded flag; high priority above 20 percent. -/
def rule2_recs (view : List Order) : List Recommendation :=
  let exceeded := view.countP (fun o => o.exceeded_9_hours)
  if 0 < exceeded ∧ 0 < view.length then
    [{ priority :=
         if 20 < ((exceeded : ℚ) / (view.length : ℚ)) * 100 then "high"
         else "medium"
       category := "Urgent"
       title := toString (pyRound 1 (((exceeded : ℚ) / (view.length : ℚ)) * 100)) ++
         "% of Delays Exceed 2 Hours"
       description := toString exceeded ++
         " orders exceeded 2 hours. Implement preventive measures to reduce critical delays."
       impact := "critical" }]
  else []

/-- Grouping key of rule 3: the reason text. -/
def reasonTextKey (o : Order) : Option String :=
  o.delay_reason.map (fun r => r.reason_text)

/-- Rule 3 input: the top 3 reason texts by distinct-order count. -/
def top_reasons_groups (view : List Order) : List (Option String × Nat) :=
  (List.insertionSort cntGE (((view.map reasonTextKey).dedup).map
    (fun k => (k, view.countP (fun o => decide (reasonTextKey o = k)))))).take 3

def rule3_recs (view : List Order) : List Recommendation :=
  (top_reasons_groups view).map (fun g =>
    { priority := "medium"
      category := "Root Cause Analysis"
      title := "Investigate: " ++ optText g.1
      description := "This reason accounts for " ++ toString g.2 ++
        " delay incidents. Consider root cause analysis and preventive actions."
      impact := "medium" })

/-- Embeds `TruncDate` on a timestamp. -/
def truncDay (t : Int) : Int := Int.fdiv t 86400

/-- Rule 4 input: the 7 most recent distinct report dates. -/
def daily_dates_desc (view : List Order) : List Int :=
  (List.insertionSort intGE
    (((view.filterMap (fun o => o.delay_reason_reported_at)).map
      truncDay).dedup)).take 7

/-- Rule 4 (recent trend): emit a high-priority Trend recommendation when
the mean daily count over those dates exceeds 2. -/
def rule4_recs (view : List Order) : List Recommendation :=
  let dates := daily_dates_desc view
  if dates.isEmpty then []
  else
    let counts := dates.map (fun d => view.countP (fun o =>
      decide ((o.delay_reason_reported_at.map truncDay) = some d)))
    let recent_avg : ℚ := (counts.sum : ℚ) / (dates.length : ℚ)
    if 2 < recent_avg then
      [{ priority := "high"
         category := "Trend"
         title := "Increasing Delay Incidents"
         description := "Recent average of " ++ toString (pyRound 1 recent_avg) ++
           " delays per day. Escalating trend detected. Immediate action recommended."
         impact := "high" }]
    else []

/-- The recommendations in rule-evaluation emission order.  The endpoint
reads only the period parameter (and the branch of the caller); category, user,
and order-type parameters are never consulted. -/
def delay_recommendations_raw (db : List Order) (branch : Option Nat)
    (params : RequestParams) (now : Int) (choices : CategoryChoices) :
    List Recommendation :=
  let view := orders_with_delays db branch
    (get_start_date_from_period now params.period) "" none ""
  rule1_recs choices view ++ rule2_recs view ++ rule3_recs view ++
    rule4_recs view

structure RecsResponse where
  success : Bool
  recommendations : List Recommendation
deriving DecidableEq, Repr

/-- Embeds `api_delay_recommendations`: stable-sort by priority rank, return the
first 8. -/
def api_delay_recommendations (db : List Order) (branch : Option Nat)
    (params : RequestParams) (now : Int) (choices : CategoryChoices) :
    RecsResponse :=
  { success := true
    recommendations :=
      (List.insertionSort recLE
        (delay_recommendations_raw db branch params now choices)).take 8 }

/-- C9: two recommendation requests agreeing on period, scope, and data
produce identical output whatever their category, user, and order-type
parameters are. -/
theorem recommendations_independent_of_extra_filters
    (db : List Order) (branch : Option Nat) (p1 p2 : RequestParams)
    (now : Int) (choices : CategoryChoices) (h : p1.period = p2.period) :
    api_delay_recommendations db branch p1 now choices =
      api_delay_recommendations db branch p2 now choices := by
  simp only [api_delay_recommendations, delay_recommendations_raw, h]

/-- Witness for C9: same period, arbitrary differing extra filters. -/
theorem recommendations_independent_of_extra_filters_witness :
    api_delay_recommendations dbScenarioA none
        ⟨"30days", "mechanical", some 5, "service"⟩ 2592000 [] =
      api_delay_recommendations dbScenarioA none
        ⟨"30days", "", none, ""⟩ 2592000 [] :=
  recommendations_independent_of_extra_filters dbScenarioA none
    ⟨"30days", "mechanical", some 5, "service"⟩ ⟨"30days", "", none, ""⟩
    2592000 [] rfl

/-- Filtering one priority value out of an ordered insertion: the inserted
record lands in front of its priority class and behind every strictly higher
priority (stability of the insertion step). -/
theorem orderedInsert_filter_priority (a : Recommendation) (s : String) :
    ∀ l : List Recommendation,
      (List.orderedInsert recLE a l).filter (fun r => r.priority == s) =
        if a.priority = s then
          a :: l.filter (fun r => r.priority == s)
        else l.filter (fun r => r.priority == s)
  | [] => by
    by_cases has : a.priority = s <;>
      simp [List.orderedInsert, List.filter_cons, has]
  | b :: t => by
    have ih := orderedInsert_filter_priority a s t
    by_cases hab : recLE a b
    · rw [List.orderedInsert_of_le recLE t hab]
      by_cases has : a.priority = s <;>
        simp [List.filter_cons, has]
    · rw [show List.orderedInsert recLE a (b :: t) =
          b :: List.orderedInsert recLE a t from by
        simp [List.orderedInsert, hab]]
      have hlt : prRank b.priority < prRank a.priority :=
        Nat.lt_of_not_le (fun hcon => hab hcon)
      by_cases hbs : b.priority = s
      · have has : a.priority ≠ s := by
          intro has
          rw [has, hbs] at hlt
          exact Nat.lt_irrefl _ hlt
        simp [List.filter_cons, hbs, has, ih]
      · by_cases has : a.priority = s <;>
          simp [List.filter_cons, hbs, has, ih]

/-- Stability of the final sort: for each priority value, the sorted list
carries exactly the records of that priority in emission order. -/
theorem insertionSort_filter_priority (s : String) :
    ∀ l : List Recommendation,
      (List.insertionSort recLE l).filter (fun r => r.priority == s) =
        l.filter (fun r => r.priority == s)
  | [] => rfl
  | a :: t => by
    have ih := insertionSort_filter_priority s t
    show (List.orderedInsert recLE a (List.insertionSort recLE t)).filter _ = _
    rw [orderedInsert_filter_priority]
    by_cases has : a.priority = s <;>
      simp [List.filter_cons, has, ih]

/-- C6: the recommendation output is the priority-rank stable sort of the
emitted records truncated to the first 8: it has at most 8 records, is
pairwise ordered by rank (`high` before `medium` before `low`), and for
each priority value the sorted list preserves the emission order. -/
theorem delay_recommendations_sorted_truncated (db : List Order)
    (branch : Option Nat) (params : RequestParams) (now : Int)
    (choices : CategoryChoices) :
    (api_delay_recommendations db branch params now choices).recommendations =
      (List.insertionSort recLE
        (delay_recommendations_raw db branch params now choices)).take 8 ∧
    (api_delay_recommendations db branch params now choices).recommendations.length ≤ 8 ∧
    (api_delay_recommendations db branch params now choices).recommendations.Pairwise
      (fun a b => prRank a.priority ≤ prRank b.priority) ∧
    ∀ s : String,
      (List.insertionSort recLE
        (delay_recommendations_raw db branch params now choices)).filter
          (fun r => r.priority == s) =
        (delay_recommendations_raw db branch params now choices).filter
          (fun r => r.priority == s) := by
  refine ⟨rfl, ?_, ?_, fun s => insertionSort_filter_priority s _⟩
  · show ((List.insertionSort recLE _).take 8).length ≤ 8
    rw [List.length_take]
    exact min_le_left _ _
  · have hs := List.sorted_insertionSort recLE
      (delay_recommendations_raw db branch params now choices)
    exact List.Pairwise.sublist (List.take_sublist 8 _) hs

theorem rule2_recs_category (view : List Order) :
    ∀ r ∈ rule2_recs view, r.category = "Urgent" := by
  intro r hr
  simp only [rule2_recs] at hr
  split at hr
  · rw [List.mem_singleton.1 hr]
  · cases hr

theorem rule3_recs_category (view : List Order) :
    ∀ r ∈ rule3_recs view, r.category = "Root Cause Analysis" := by
  intro r hr
  simp only [rule3_recs] at hr
  rcases List.mem_map.1 hr with ⟨g, _, rfl⟩
  rfl

theorem rule4_recs_category (view : List Order) :
    ∀ r ∈ rule4_recs view, r.category = "Trend" := by
  intro r hr
  simp only [rule4_recs] at hr
  split at hr
  · cases hr
  · split at hr
    · rw [List.mem_singleton.1 hr]
    · cases hr

/-- Inserting a minimal record puts it at the head. -/
theorem orderedInsert_min_head (a : Recommendation)
    (h : ∀ b, recLE a b) :
    ∀ l, List.orderedInsert recLE a l = a :: l
  | [] => rfl
  | b :: _ => by simp [List.orderedInsert, h b]

/-- C7: with the category groups of the period/scope-filtered delayed view
computed as `top :: rest`, the output contains a Process Improvement record
iff the count of the top category exceeds 30 percent of the delayed count, and in
that case a high-priority record naming the top category is in the
output. -/
theorem dominant_category_rule_spec (db : List Order) (branch : Option Nat)
    (params : RequestParams) (now : Int) (choices : CategoryChoices)
    (top : Option String × Nat) (rest : List (Option String × Nat))
    (htop : category_counts (orders_with_delays db branch
      (get_start_date_from_period now params.period) "" none "") =
      top :: rest) :
    ((∃ r ∈ (api_delay_recommendations db branch params now
          choices).recommendations,
        r.category = "Process Improvement") ↔
      ((orders_with_delays db branch
          (get_start_date_from_period now params.period) "" none "").length : ℚ) *
        (3 / 10) < (top.2 : ℚ)) ∧
    (((orders_with_delays db branch
          (get_start_date_from_period now params.period) "" none "").length : ℚ) *
        (3 / 10) < (top.2 : ℚ) →
      ∃ r ∈ (api_delay_recommendations db branch params now
          choices).recommendations,
        r.priority = "high" ∧ r.category = "Process Improvement" ∧
        r.title = "Address " ++ displayOptCategory choices top.1 ++
          " Issues") := by
  have hbackward :
      ((orders_with_delays db branch
          (get_start_date_from_period now params.period) "" none "").length : ℚ) *
        (3 / 10) < (top.2 : ℚ) →
      rule1_rec choices top (orders_with_delays db branch
          (get_start_date_from_period now params.period) "" none "").length ∈
        (api_delay_recommendations db branch params now
          choices).recommendations := by
    intro hcond
    have hraw : delay_recommendations_raw db branch params now choices =
        rule1_rec choices top (orders_with_delays db branch
            (get_start_date_from_period now params.period) "" none "").length ::
          (rule2_recs (orders_with_delays db branch
              (get_start_date_from_period now params.period) "" none "") ++
            rule3_recs (orders_with_delays db branch
              (get_start_date_from_period now params.period) "" none "") ++
            rule4_recs (orders_with_delays db branch
              (get_start_date_from_period now params.period) "" none "")) := by
      simp only [delay_recommendations_raw, rule1_recs, htop]
      rw [if_pos hcond]
      simp [List.append_assoc]
    have hmin : ∀ b, recLE (rule1_rec choices top (orders_with_delays db branch
        (get_start_date_from_period now params.period) "" none "").length) b := by
      intro b
      show prRank "high" ≤ prRank b.priority
      have h0 : prRank "high" = 0 := rfl
      rw [h0]
      exact Nat.zero_le _
    show _ ∈ (List.insertionSort recLE
      (delay_recommendations_raw db branch params now choices)).take 8
    rw [hraw]
    show _ ∈ (List.orderedInsert recLE _ (List.insertionSort recLE _)).take 8
    rw [orderedInsert_min_head _ hmin]
    exact List.mem_cons_self _ _
  have hforward :
      (∃ r ∈ (api_delay_recommendations db branch params now
          choices).recommendations,
        r.category = "Process Improvement") →
      ((orders_with_delays db branch
          (get_start_date_from_period now params.period) "" none "").length : ℚ) *
        (3 / 10) < (top.2 : ℚ) := by
    rintro ⟨r, hr, hPI⟩
    have hr2 : r ∈ List.insertionSort recLE
        (delay_recommendations_raw db branch params now choices) :=
      (List.take_sublist 8 _).subset hr
    have hr3 : r ∈ delay_recommendations_raw db branch params now choices :=
      (List.perm_insertionSort recLE _).subset hr2
    simp only [delay_recommendations_raw] at hr3
    rcases List.mem_append.1 hr3 with hr4 | hr4
    rcases List.mem_append.1 hr4 with hr5 | hr5
    rcases List.mem_append.1 hr5 with hr6 | hr6
    · simp only [rule1_recs, htop] at hr6
      by_cases hcond : ((orders_with_delays db branch
          (get_start_date_from_period now params.period)
          "" none "").length : ℚ) * (3 / 10) < (top.2 : ℚ)
      · exact hcond
      · rw [if_neg hcond] at hr6
        cases hr6
    · have := rule2_recs_category _ r hr6
      rw [this] at hPI
      exact absurd hPI (by decide)
    · have := rule3_recs_category _ r hr5
      rw [this] at hPI
      exact absurd hPI (by decide)
    · have := rule4_recs_category _ r hr4
      rw [this] at hPI
      exact absurd hPI (by decide)
  refine ⟨⟨hforward, fun hcond => ⟨_, hbackward hcond, rfl⟩⟩,
    fun hcond => ⟨_, hbackward hcond, rfl, rfl, rfl⟩⟩

def rsnX : DelayReason := { id := 10, reason_text := "rx", category := some "X" }

def rsnY : DelayReason := { id := 11, reason_text := "ry", category := some "Y" }

def rsnZ : DelayReason := { id := 12, reason_text := "rz", category := some "Z" }

def rsnW : DelayReason := { id := 13, reason_text := "rw", category := some "W" }

/-- Scenario D data: 20 delayed orders; category X holds 7 of them (35%). -/
def dbScenarioD : List Order :=
  [mkDelayed 1 rsnX, mkDelayed 2 rsnX, mkDelayed 3 rsnX, mkDelayed 4 rsnX,
   mkDelayed 5 rsnX, mkDelayed 6 rsnX, mkDelayed 7 rsnX,
   mkDelayed 8 rsnY, mkDelayed 9 rsnY, mkDelayed 10 rsnY,
   mkDelayed 11 rsnY, mkDelayed 12 rsnY, mkDelayed 13 rsnY,
   mkDelayed 14 rsnZ, mkDelayed 15 rsnZ, mkDelayed 16 rsnZ,
   mkDelayed 17 rsnZ, mkDelayed 18 rsnZ, mkDelayed 19 rsnZ,
   mkDelayed 20 rsnW]

/-- Witness for C7 on the Scenario D data: category X with 7 of 20 delayed
orders (35%) triggers the high-priority Process Improvement record. -/
theorem dominant_category_rule_spec_witness :
    ∃ r ∈ (api_delay_recommendations dbScenarioD none ⟨"30days", "", none, ""⟩
        2592000 []).recommendations,
      r.priority = "high" ∧ r.category = "Process Improvement" ∧
      r.title = "Address " ++ displayOptCategory [] (some "X") ++ " Issues" := by
  have h := dominant_category_rule_spec dbScenarioD none ⟨"30days", "", none, ""⟩
    2592000 [] (some "X", 7) [(some "Y", 6), (some "Z", 6), (some "W", 1)]
    (by decide)
  refine h.2 ?_
  have hlen : (orders_with_delays dbScenarioD none
      (get_start_date_from_period 2592000 "30days") "" none "").length = 20 := by
    decide
  rw [hlen]
  norm_num

structure ReasonEntry where
  id : Option Nat
  reason_text : Option String
  category : Option String
  category_name : Option String
  count : Nat
  percentage : ℚ
deriving DecidableEq, Repr

structure AllReasonsResponse where
  success : Bool
  data : List ReasonEntry
  total : Nat
  message : String
deriving DecidableEq, Repr

/-- Grouping key of the all-reasons listing: reason id, text, and
category. -/
def reasonKey (o : Order) : Option (Nat × String × Option String) :=
  o.delay_reason.map (fun r => (r.id, r.reason_text, r.category))

/-- Embeds `api_all_delay_reasons`: on an empty filtered view, a success result
with empty data and an explanatory message; otherwise the per-reason counts
sorted descending with percentages against the filtered total. -/
def api_all_delay_reasons (db : List Order) (branch : Option Nat)
    (params : RequestParams) (now : Int) (choices : CategoryChoices) :
    AllReasonsResponse :=
  let startDate := get_start_date_from_period now params.period
  let orders_qs := orders_with_delays db branch startDate params.category
    params.user params.order_type
  let total_delayed := orders_qs.length
  if total_delayed = 0 then
    { success := true
      data := []
      total := 0
      message := "No delay reasons submitted in the selected period." }
  else
    let groups := List.insertionSort cntGE (((orders_qs.map reasonKey).dedup).map
      (fun k => (k, orders_qs.countP (fun o => decide (reasonKey o = k)))))
    let data : List ReasonEntry := groups.map (fun g =>
      { id := g.1.map (fun k => k.1)
        reason_text := g.1.map (fun k => k.2.1)
        category := g.1.bind (fun k => k.2.2)
        category_name := (g.1.bind (fun k => k.2.2)).map
          (get_category_display choices)
        count := g.2
        percentage :=
          pyRound 1 ((g.2 : ℚ) * 100 / (total_delayed : ℚ)) })
    { success := true
      data := data
      total := total_delayed
      message := "Showing " ++ toString data.length ++
        " unique delay reasons from " ++ toString total_delayed ++ " submitted." }

/-- C8: when zero delayed orders match the filters, the all-reasons listing
returns success with empty data, total 0, and the explanatory message, not
an error. -/
theorem all_delay_reasons_empty_spec (db : List Order) (branch : Option Nat)
    (params : RequestParams) (now : Int) (choices : CategoryChoices)
    (h : (orders_with_delays db branch
      (get_start_date_from_period now params.period)
      params.category params.user params.order_type).length = 0) :
    api_all_delay_reasons db branch params now choices =
      { success := true
        data := []
        total := 0
        message := "No delay reasons submitted in the selected period." } := by
  simp only [api_all_delay_reasons]
  rw [if_pos h]

/-- Witness for C8 on an empty database. -/
theorem all_delay_reasons_empty_spec_witness :
    api_all_delay_reasons [] none ⟨"30days", "", none, ""⟩ 0 [] =
      { success := true
        data := []
        total := 0
        message := "No delay reasons submitted in the selected period." } :=
  all_delay_reasons_empty_spec [] none ⟨"30days", "", none, ""⟩ 0 [] (by decide)

/-- The delayed-orders queryset of the dashboard: truthiness-guarded branch
filter plus the usual delayed-order filters. -/
def dashboard_orders_qs (db : List Order) (user_branch : Option Nat)
    (params : RequestParams) (now : Int) : List Order :=
  orders_with_delays db user_branch
    (get_start_date_from_period now params.period)
    params.category params.user params.order_type

/-- The `total_orders` denominator of the dashboard: a DIRECT
`branch=user_branch` equality filter (which is `branch IS NULL` when the
caller has no branch), completed status, non-null report timestamp, and the
period filter on the report timestamp. -/
def dashboard_total_orders_count (db : List Order) (user_branch : Option Nat)
    (startDate : Option Int) : Nat :=
  db.countP (fun o => o.branch == user_branch && o.status == "completed" &&
    o.delay_reason_reported_at.isSome && reportedSince startDate o)

/-- The `delay_rate` of the dashboard before rounding. -/
def dashboard_delay_rate (db : List Order) (user_branch : Option Nat)
    (params : RequestParams) (now : Int) : ℚ :=
  let startDate := get_start_date_from_period now params.period
  let total_delayed := (dashboard_orders_qs db user_branch params now).length
  let denom := dashboard_total_orders_count db user_branch startDate
  if 0 < denom then (total_delayed : ℚ) / (denom : ℚ) * 100 else 0

/-- The `delay_rate` the dashboard context renders. -/
def dashboard_context_delay_rate (db : List Order) (user_branch : Option Nat)
    (params : RequestParams) (now : Int) : ℚ :=
  pyRound 2 (dashboard_delay_rate db user_branch params now)

/-- C10: for a caller with no branch, the delayed count of the dashboard ranges
over orders of every branch (no branch constraint at all), while its
denominator query keeps the branch-equality filter with the null branch
(counting only branch-less completed delay-reported orders); whenever the
database holds no branch-less orders the rate is 0. -/
theorem dashboard_unscoped_baseline_mismatch (db : List Order)
    (params : RequestParams) (now : Int) :
    (dashboard_orders_qs db none params now).length =
      db.countP (fun o => o.delay_reason.isSome &&
        o.delay_reason_reported_at.isSome &&
        reportedSince (get_start_date_from_period now params.period) o &&
        categoryOk params.category o && userOk params.user o &&
        typeOk params.order_type o) ∧
    dashboard_total_orders_count db none
        (get_start_date_from_period now params.period) =
      db.countP (fun o => o.branch.isNone && o.status == "completed" &&
        o.delay_reason_reported_at.isSome &&
        reportedSince (get_start_date_from_period now params.period) o) ∧
    (db.countP (fun o => o.branch.isNone) = 0 →
      dashboard_delay_rate db none params now = 0) := by
  refine ⟨?_, ?_, fun h => ?_⟩
  · rw [dashboard_orders_qs, orders_with_delays,
      ← List.countP_eq_length_filter]
    apply List.countP_congr
    intro o _
    simp [delayedFilter, branchOk, Bool.and_assoc]
  · rw [dashboard_total_orders_count]
    apply List.countP_congr
    intro o _
    cases hob : o.branch <;> simp [hob]
  · have hz : dashboard_total_orders_count db none
        (get_start_date_from_period now params.period) = 0 := by
      have hle : dashboard_total_orders_count db none
          (get_start_date_from_period now params.period) ≤
          db.countP (fun o => o.branch.isNone) := by
        rw [dashboard_total_orders_count]
        apply List.countP_mono_left
        intro o _ hp
        simp only [Bool.and_eq_true] at hp
        have hb := hp.1.1.1
        cases hob : o.branch
        · rfl
        · rw [hob] at hb
          cases hb
      omega
    simp only [dashboard_delay_rate]
    rw [hz]
    norm_num

/-- A delayed, completed order belonging to branch 1. -/
def oBranched : Order :=
  { baseOrder with
    id := 7
    branch := some 1
    status := "completed"
    delay_reason := some rsnLogistics
    delay_reason_reported_at := some 1 }

/-- Witness for C10: one delayed order in branch 1, an unscoped caller; the
delayed count is 1 but the rate is 0 because no branch-less orders exist. -/
theorem dashboard_unscoped_baseline_mismatch_witness :
    (dashboard_orders_qs [oBranched] none ⟨"all", "", none, ""⟩ 0).length = 1 ∧
    dashboard_delay_rate [oBranched] none ⟨"all", "", none, ""⟩ 0 = 0 :=
  ⟨by decide,
    (dashboard_unscoped_baseline_mismatch [oBranched] ⟨"all", "", none, ""⟩
      0).2.2 (by decide)⟩

end DelayAnalytics
